import Mathlib

/-!
# cachehandler: response-caching middleware

A shallow embedding of `cachehandler.go` (package `cachehandler`).

* The response sink (`http.ResponseWriter`) is a recording sink: it owns one header
  map and remembers every call it received.  What a `Write` returns is given by an
  arbitrary function `wres` of the sink's history, so every deterministic sink is covered.
* The wrapped handler (`next`) is a tree of calls on the writer it is given; each
  continuation receives what the call returned.
* `sync.Pool`, `singleflight.Group` and the clock are not deterministic; what they do
  for one request is an explicit argument (`Env`).
* `textproto.CanonicalMIMEHeaderKey`, used by `http.Header.Set`, is the parameter `canon`.
-/

namespace Cachehandler

/-! ## Data model -/

/-- A byte slice (`[]byte`). -/
abbrev Bytes := List UInt8

/-- Go `http.Header` (`map[string][]string`) as an association list.  The order of the
list is the order in which a `range` loop visits the map; a nil map is the empty list
only where the source cannot tell them apart. -/
abbrev Header := List (String × List String)

/-- The value sequence bound to `key`, as `h[key]` with the comma-ok form. -/
def Header.lookup (h : Header) (key : String) : Option (List String) :=
  List.lookup key h

/-- Go `http.Header.Set`: `h[CanonicalMIMEHeaderKey(key)] = []string{value}`. -/
def Header.Set (canon : String → String) (h : Header) (key value : String) : Header :=
  (canon key, [value]) :: h.filter (fun e => e.1 != canon key)

/-- The `response` struct (source lines 28-32).  `header` is `none` for a nil map. -/
structure response where
  header : Option Header
  statusCode : Int
  body : Bytes
  deriving DecidableEq, Repr

/-- The part of `*http.Request` the package reads: `r.Method` and `r.URL.String()`. -/
structure Request where
  Method : String
  URL : String
  deriving DecidableEq, Repr

/-! ## The response sink -/

/-- A call received by an `http.ResponseWriter`. -/
inductive Call where
  | Header
  | WriteHeader (code : Int)
  | Write (b : Bytes)
  deriving DecidableEq, Repr

/-- What `Write` returns: the byte count and the error (`none` for nil). -/
abbrev WriteResult := Nat × Option String

/-- The real response sink: its header map and the calls it has received so far. -/
structure ResponseWriter where
  header : Header
  calls : List Call
  deriving DecidableEq, Repr

/-- Behaviour of the sink on `Write`: the result as a function of the sink and the bytes. -/
abbrev WriteOracle := ResponseWriter → Bytes → WriteResult

/-- The call `w.Header()`: returns the sink's header map. -/
def ResponseWriter.Header (w : ResponseWriter) : Header × ResponseWriter :=
  (w.header, { w with calls := w.calls ++ [Call.Header] })

/-- The call `w.WriteHeader(code)`. -/
def ResponseWriter.WriteHeader (w : ResponseWriter) (code : Int) : ResponseWriter :=
  { w with calls := w.calls ++ [Call.WriteHeader code] }

/-- The call `w.Write(b)`. -/
def ResponseWriter.Write (wres : WriteOracle) (w : ResponseWriter) (b : Bytes) :
    WriteResult × ResponseWriter :=
  (wres w b, { w with calls := w.calls ++ [Call.Write b] })

/-! ## Handlers -/

/-- An `http.Handler` body that returns: the calls it makes on the writer it is given.
`mutate` is an in-place update of the map obtained from `Header()`; it does not go
through the writer. -/
inductive Handler where
  | done
  | Header (k : Header → Handler)
  | mutate (f : Header → Header) (k : Handler)
  | WriteHeader (code : Int) (k : Handler)
  | Write (b : Bytes) (k : WriteResult → Handler)

/-- One call as the handler sees it: the arguments it passed and what came back. -/
inductive Exchange where
  | Header (ret : Header)
  | WriteHeader (code : Int)
  | Write (b : Bytes) (ret : WriteResult)
  deriving DecidableEq, Repr

/-- The call underlying an exchange. -/
def Exchange.call : Exchange → Call
  | .Header _ => Call.Header
  | .WriteHeader code => Call.WriteHeader code
  | .Write b _ => Call.Write b

/-- Running `next.ServeHTTP(w, r)` on the sink itself, with no capture. -/
def serve (wres : WriteOracle) : Handler → ResponseWriter → List Exchange × ResponseWriter
  | .done, w => ([], w)
  | .Header k, w =>
    let (h, w1) := w.Header
    let (t, w2) := serve wres (k h) w1
    (Exchange.Header h :: t, w2)
  | .mutate f k, w => serve wres k { w with header := f w.header }
  | .WriteHeader code k, w =>
    let w1 := w.WriteHeader code
    let (t, w2) := serve wres k w1
    (Exchange.WriteHeader code :: t, w2)
  | .Write b k, w =>
    let (res, w1) := w.Write wres b
    let (t, w2) := serve wres (k res) w1
    (Exchange.Write b res :: t, w2)

/-! ## The capture shim (source lines 82-115) -/

/-- The variables captured by the hooks: `header`, `wroteHeader`, `status` (lines 82-86)
and the pooled buffer `buf` (line 87).  `header` is a reference to the sink's own map
or nil; `true` stands for the reference. -/
structure Capture where
  header : Bool
  wroteHeader : Bool
  status : Int
  buf : Bytes
  deriving DecidableEq, Repr

/-- The `WriteHeader` hook (lines 92-100). -/
def hookWriteHeader (code : Int) (c : Capture) (w : ResponseWriter) :
    Capture × ResponseWriter :=
  let w1 := w.WriteHeader code
  if !c.wroteHeader then
    ({ c with status := code, wroteHeader := true }, w1)
  else
    (c, w1)

/-- The `Write` hook (lines 101-107). -/
def hookWrite (wres : WriteOracle) (b : Bytes) (c : Capture) (w : ResponseWriter) :
    WriteResult × Capture × ResponseWriter :=
  let (res, w1) := w.Write wres b
  let c1 := { c with buf := c.buf ++ b }
  (res, c1, w1)

/-- The `Header` hook (lines 108-114). -/
def hookHeader (c : Capture) (w : ResponseWriter) : Header × Capture × ResponseWriter :=
  let (h, w1) := w.Header
  let c1 := { c with header := true }
  (h, c1, w1)

/-- Running `next.ServeHTTP(httpsnoop.Wrap(w, hooks), r)`: every call of the handler
goes through the matching hook. -/
def serveSnoop (wres : WriteOracle) :
    Handler → Capture → ResponseWriter → List Exchange × Capture × ResponseWriter
  | .done, c, w => ([], c, w)
  | .Header k, c, w =>
    let (h, c1, w1) := hookHeader c w
    let (t, c2, w2) := serveSnoop wres (k h) c1 w1
    (Exchange.Header h :: t, c2, w2)
  | .mutate f k, c, w => serveSnoop wres k c { w with header := f w.header }
  | .WriteHeader code k, c, w =>
    let (c1, w1) := hookWriteHeader code c w
    let (t, c2, w2) := serveSnoop wres k c1 w1
    (Exchange.WriteHeader code :: t, c2, w2)
  | .Write b k, c, w =>
    let (res, c1, w1) := hookWrite wres b c w
    let (t, c2, w2) := serveSnoop wres (k res) c1 w1
    (Exchange.Write b res :: t, c2, w2)

/-! ## The cache store -/

/-- The counters of `CacheStats` (source lines 43-47). -/
structure CacheStats where
  Hits : Nat
  Misses : Nat
  Added : Nat
  Evicted : Nat
  deriving DecidableEq, Repr

/-- A value held by the cache (`interface{}`): a `*response`, or anything else, for
which the type assertion of line 66 fails. -/
inductive CacheValue where
  | resp (r : response)
  | other
  deriving DecidableEq, Repr

/-- Modelled from the spec: an entry of the cache store (the store is the library
`expirable-cache`, whose source is not part of the package).  Spec section 3:
key, value and expiry time. -/
structure CacheEntry where
  key : String
  value : CacheValue
  expiresAt : Nat
  deriving DecidableEq, Repr

/-- Modelled from the spec: the cache store of spec section 4.3, a bounded mapping
with the most recently used entry first, and its counters. -/
structure Cache where
  items : List CacheEntry
  maxKeys : Nat
  stat : CacheStats
  deriving DecidableEq, Repr

/-- Modelled from the spec: `get(key)` of the cache store (section 4.3), at clock
reading `now`.  Found only if an unexpired entry exists (unexpired: `now` before the
expiry time, section 8); an expired entry is removed; hits or misses is incremented. -/
def Cache.Get (c : Cache) (now : Nat) (key : String) : Option CacheValue × Cache :=
  match c.items.find? (fun e => e.key == key) with
  | none => (none, { c with stat := { c.stat with Misses := c.stat.Misses + 1 } })
  | some e =>
    if now < e.expiresAt then
      (some e.value,
        { c with items := e :: c.items.filter (fun x => x.key != key),
                 stat := { c.stat with Hits := c.stat.Hits + 1 } })
    else
      (none,
        { c with items := c.items.filter (fun x => x.key != key),
                 stat := { c.stat with Misses := c.stat.Misses + 1 } })

/-- Modelled from the spec: `set(key, record, ttl)` of the cache store (section 4.3),
at clock reading `now`.  Inserts or overwrites, expiry `now + ttl`, increments the
insertion counter, and evicts the least recently used entry when over the maximum. -/
def Cache.Set (c : Cache) (now : Nat) (key : String) (value : CacheValue) (ttl : Nat) :
    Cache :=
  let items1 :=
    { key := key, value := value, expiresAt := now + ttl } ::
      c.items.filter (fun x => x.key != key)
  let stat1 := { c.stat with Added := c.stat.Added + 1 }
  if items1.length > c.maxKeys then
    { c with items := items1.dropLast,
             stat := { stat1 with Evicted := stat1.Evicted + 1 } }
  else
    { c with items := items1, stat := stat1 }

/-! ## The buffer pool -/

/-- The idle buffers of the `sync.Pool`, each with the bytes it holds. -/
abbrev Pool := List Bytes

/-- Go `pool.Get()`: an idle buffer (the one at index `i`, which the run-time picks),
or, when there is none there, a new one from `New`: `new(bytes.Buffer)`, empty. -/
def Pool.Get (p : Pool) (i : Nat) : Bytes × Pool :=
  match p.get? i with
  | some b => (b, p.eraseIdx i)
  | none => ([], p)

/-- Go `pool.Put(buf)`: the buffer goes back as it is. -/
def Pool.Put (p : Pool) (buf : Bytes) : Pool :=
  buf :: p

/-! ## The middleware -/

/-- The type `KeyFunc` (line 26).  The function is handed the writer, so it may use it. -/
abbrev KeyFunc := ResponseWriter → Request → (String × Bool) × ResponseWriter

/-- The function `BasicKeyFunc` (lines 18-22). -/
def BasicKeyFunc : KeyFunc :=
  fun w r => ((r.Method ++ r.URL, true), w)

/-- The struct `Middleware` (lines 35-41).  The `singleflight.Group` has no field:
what it does for a request is `Env.leader`. -/
structure Middleware where
  ttl : Nat
  keyFn : KeyFunc
  cache : Cache
  pool : Pool

/-- The method `Stats` (lines 49-57). -/
def Middleware.Stats (m : Middleware) : CacheStats :=
  let stats := m.cache.stat
  { Hits := stats.Hits, Misses := stats.Misses, Added := stats.Added,
    Evicted := stats.Evicted }

/-- The function `NewMiddleware` (lines 133-149): an empty cache and an empty pool. -/
def NewMiddleware (max : Nat) (ttl : Nat) (keyFn : KeyFunc) : Middleware :=
  { ttl := ttl, keyFn := keyFn,
    cache := { items := [], maxKeys := max,
               stat := { Hits := 0, Misses := 0, Added := 0, Evicted := 0 } },
    pool := [] }

/-- What the surroundings decide for one request: the clock at `cache.Get` and at
`cache.Set`, the buffer `pool.Get` picks, and whether `group.Do` runs the closure
(`leader`) or another execution for the key is in flight and the call returns
without running it. -/
structure Env where
  tGet : Nat
  tSet : Nat
  poolIdx : Nat
  leader : Bool
  deriving DecidableEq, Repr

/-- An effect of `Wrap` outside the response sink, in order of occurrence. -/
inductive Effect where
  | cacheGet (key : String)
  | poolGet
  | next
  | cacheSet (key : String) (resp : response) (ttl : Nat)
  | poolPut
  deriving DecidableEq, Repr

/-- The result of handling one request: the middleware and the sink afterwards, and
the effects that took place. -/
structure Outcome where
  m : Middleware
  w : ResponseWriter
  log : List Effect

/-- The header replay loop (lines 71-75) on the map `header` of the sink. -/
def replayHeader (canon : String → String) (stored : Header) (header : Header) : Header :=
  stored.foldl
    (fun acc e => e.2.foldl (fun acc1 h => Header.Set canon acc1 e.1 h) acc)
    header

/-- The hit path (lines 70-78). -/
def hit (canon : String → String) (wres : WriteOracle) (resp : response)
    (w : ResponseWriter) : ResponseWriter :=
  let (header, w1) := w.Header
  let w2 := { w1 with header := replayHeader canon (resp.header.getD []) header }
  let w3 := w2.WriteHeader resp.statusCode
  let (_, w4) := w3.Write wres resp.body
  w4

/-- Go `m.group.Do(key, fn)` for one caller: the closure runs, or it does not. -/
def groupDo {σ : Type} (leader : Bool) (fn : σ → σ) (s : σ) : σ :=
  if leader then fn s else s

/-- The closure handed to `group.Do` (lines 90-117), on the capture variables and the sink. -/
def closure (wres : WriteOracle) (h : Handler) (s : Capture × ResponseWriter) :
    Capture × ResponseWriter :=
  (serveSnoop wres h s.1 s.2).2

/-- The record built at lines 119-127 from the capture variables; the header
reference is read on the sink. -/
def buildResponse (c : Capture) (w : ResponseWriter) : response :=
  let status := if c.status == 0 then 200 else c.status
  { header := if c.header then some w.header else none,
    statusCode := status,
    body := c.buf }

/-- The miss path (label `MISS`, lines 81-128); `cache1` is the cache after the lookup. -/
def miss (wres : WriteOracle) (m : Middleware) (next : Request → Handler) (env : Env)
    (key : String) (cache1 : Cache) (w : ResponseWriter) (r : Request) : Outcome :=
  let (buf, pool1) := m.pool.Get env.poolIdx
  let c0 : Capture := { header := false, wroteHeader := false, status := 0, buf := buf }
  let (c1, w1) := groupDo env.leader (closure wres (next r)) (c0, w)
  let resp := buildResponse c1 w1
  let cache2 := cache1.Set env.tSet key (CacheValue.resp resp) m.ttl
  let pool2 := pool1.Put c1.buf
  { m := { m with cache := cache2, pool := pool2 },
    w := w1,
    log := [Effect.cacheGet key, Effect.poolGet] ++
      (if env.leader then [Effect.next] else []) ++
      [Effect.cacheSet key resp m.ttl, Effect.poolPut] }

/-- The method `Wrap` (lines 59-130): the handler it returns, applied to `w` and `r`. -/
def Wrap (canon : String → String) (wres : WriteOracle) (m : Middleware)
    (next : Request → Handler) (env : Env) (w : ResponseWriter) (r : Request) : Outcome :=
  let (ko, w0) := m.keyFn w r
  if !ko.2 then
    { m := m, w := w0, log := [] }
  else
    let (v, cache1) := m.cache.Get env.tGet ko.1
    match v with
    | some (CacheValue.resp resp) =>
      { m := { m with cache := cache1 }, w := hit canon wres resp w0,
        log := [Effect.cacheGet ko.1] }
    | _ => miss wres m next env ko.1 cache1 w0 r

/-! ## Observations used in the statements -/

/-- The exchanges the handler has with the capture shim when the closure runs. -/
def shimExchanges (wres : WriteOracle) (h : Handler) (c : Capture) (w : ResponseWriter) :
    List Exchange :=
  (serveSnoop wres h c w).1

/-- The code of the first `WriteHeader` call among the exchanges, if there is one. -/
def firstWriteHeader : List Exchange → Option Int
  | [] => none
  | Exchange.WriteHeader code :: _ => some code
  | _ :: t => firstWriteHeader t

/-- The code of the first `WriteHeader` call when no `Write` comes before it: the
status the handler sets explicitly before the body starts, if it sets one. -/
def statusBeforeBody : List Exchange → Option Int
  | [] => none
  | Exchange.WriteHeader code :: _ => some code
  | Exchange.Write _ _ :: _ => none
  | Exchange.Header _ :: t => statusBeforeBody t

/-- The byte slices passed to `Write`, concatenated in order. -/
def writesOf : List Exchange → Bytes
  | [] => []
  | Exchange.Write b _ :: t => b ++ writesOf t
  | _ :: t => writesOf t

/-- The record handed to `cache.Set` while handling the request, if any. -/
def storedRecord (o : Outcome) : Option response :=
  o.log.findSome? (fun e =>
    match e with
    | Effect.cacheSet _ resp _ => some resp
    | _ => none)

/-- How often `next.ServeHTTP` was invoked while handling the request. -/
def nextCalls (o : Outcome) : Nat :=
  o.log.count Effect.next

/-- The capture variables as declared at `MISS` (lines 82-87), with the pooled buffer `buf`. -/
def Capture.init (buf : Bytes) : Capture :=
  { header := false, wroteHeader := false, status := 0, buf := buf }

/-! ## Concrete inputs -/

/-- A sink that accepts every write in full: `Write` returns `len(b), nil`. -/
def okWrite : WriteOracle :=
  fun _ b => (b.length, none)

/-- A fresh response sink. -/
def emptyWriter : ResponseWriter :=
  { header := [], calls := [] }

/-- A key function that never proceeds. -/
def denyKeyFn : KeyFunc :=
  fun w _ => (("", false), w)

/-- Go `http.Header.Add` for a key that is already canonical. -/
def Header.Add (h : Header) (key value : String) : Header :=
  match h.lookup key with
  | some l => (key, l ++ [value]) :: h.filter (fun e => e.1 != key)
  | none => (key, [value]) :: h

/-- The bytes of `abcdefg`. -/
def abcdefg : Bytes := [97, 98, 99, 100, 101, 102, 103]

/-- The handler of `Test` (cachehandler_test.go, lines 21-26): header `X-Test`,
status 500, body `abcdefg`. -/
def testHandler : Request → Handler :=
  fun _ =>
    Handler.Header fun _ =>
      Handler.mutate (fun h => Header.Add h "X-Test" "test-value")
        (Handler.WriteHeader 500 (Handler.Write abcdefg fun _ => Handler.done))

/-- The environment of a request that runs alone: the clock reads `t` at the lookup
and at the store, the pool hands out its first idle buffer, the closure runs. -/
def seqEnv (t : Nat) : Env :=
  { tGet := t, tSet := t, poolIdx := 0, leader := true }

/-- The request `GET /foo`. -/
def getFoo : Request :=
  { Method := "GET", URL := "/foo" }

/-- The record of the response of `testHandler`. -/
def testRecord : response :=
  { header := some [("X-Test", ["test-value"])], statusCode := 500, body := abcdefg }

/-- The middleware of `Test` (`NewMiddleware(1000, 1*time.Hour, BasicKeyFunc())`, one
tick a second) after it has handled a first `GET /foo` at time 0. -/
def afterFirst : Middleware :=
  (Wrap id okWrite (NewMiddleware 1000 3600 BasicKeyFunc) testHandler (seqEnv 0)
    emptyWriter getFoo).m

/-- The request `GET /foo/var`. -/
def getFooVar : Request :=
  { Method := "GET", URL := "/foo/var" }

/-- The environment of a request that arrives while another execution for its key is
in flight: `group.Do` returns without running the closure. -/
def followerEnv (t : Nat) : Env :=
  { tGet := t, tSet := t, poolIdx := 0, leader := false }

/-- A handler that calls `WriteHeader(500)`, then `WriteHeader(200)`, then writes
`abcdefg`. -/
def twiceStatusHandler : Request → Handler :=
  fun _ =>
    Handler.WriteHeader 500
      (Handler.WriteHeader 200 (Handler.Write abcdefg fun _ => Handler.done))

/-- A handler that writes the body `x` first and calls `WriteHeader(404)` afterwards. -/
def lateStatusHandler : Request → Handler :=
  fun _ => Handler.Write [120] fun _ => Handler.WriteHeader 404 Handler.done

/-- A stored record with a header name that carries two values. -/
def multiRecord : response :=
  { header := some [("X-A", ["1", "2"])], statusCode := 200, body := [] }

/-! ## The capture shim: what the hooks accumulate -/

/-- The sink after the shimmed run has received the handler's calls, in order. -/
theorem serveSnoop_calls (wres : WriteOracle) (h : Handler) :
    ∀ (c : Capture) (w : ResponseWriter),
      (serveSnoop wres h c w).2.2.calls =
        w.calls ++ (serveSnoop wres h c w).1.map Exchange.call := by
  induction h with
  | done => intro c w; simp [serveSnoop]
  | Header k ih =>
    intro c w
    simp only [serveSnoop, hookHeader, ResponseWriter.Header]
    rw [ih]
    simp [Exchange.call]
  | mutate f k ih =>
    intro c w
    simp only [serveSnoop]
    rw [ih]
  | WriteHeader code k ih =>
    intro c w
    simp only [serveSnoop, hookWriteHeader, ResponseWriter.WriteHeader]
    split <;> (simp only []; rw [ih]; simp [Exchange.call])
  | Write b k ih =>
    intro c w
    simp only [serveSnoop, hookWrite, ResponseWriter.Write]
    rw [ih]
    simp [Exchange.call]

/-- The buffer after the shimmed run: its bytes before, then the bytes written. -/
theorem serveSnoop_buf (wres : WriteOracle) (h : Handler) :
    ∀ (c : Capture) (w : ResponseWriter),
      (serveSnoop wres h c w).2.1.buf = c.buf ++ writesOf (serveSnoop wres h c w).1 := by
  induction h with
  | done => intro c w; simp [serveSnoop, writesOf]
  | Header k ih =>
    intro c w
    simp only [serveSnoop, hookHeader, ResponseWriter.Header]
    rw [ih]
    simp [writesOf]
  | mutate f k ih =>
    intro c w
    simp only [serveSnoop]
    rw [ih]
  | WriteHeader code k ih =>
    intro c w
    simp only [serveSnoop, hookWriteHeader, ResponseWriter.WriteHeader]
    split <;> (simp only []; rw [ih]; simp [writesOf])
  | Write b k ih =>
    intro c w
    simp only [serveSnoop, hookWrite, ResponseWriter.Write]
    rw [ih]
    simp [writesOf]

/-- The recorded status after the shimmed run: once `wroteHeader` is set it stays as
it is; otherwise it is the code of the first `WriteHeader`, or unchanged without one. -/
theorem serveSnoop_status (wres : WriteOracle) (h : Handler) :
    ∀ (c : Capture) (w : ResponseWriter),
      (serveSnoop wres h c w).2.1.status =
        if c.wroteHeader then c.status
        else (firstWriteHeader (serveSnoop wres h c w).1).getD c.status := by
  induction h with
  | done => intro c w; simp [serveSnoop, firstWriteHeader]
  | Header k ih =>
    intro c w
    simp only [serveSnoop, hookHeader, ResponseWriter.Header]
    rw [ih]
    simp [firstWriteHeader]
  | mutate f k ih =>
    intro c w
    simp only [serveSnoop]
    rw [ih]
  | WriteHeader code k ih =>
    intro c w
    simp only [serveSnoop, hookWriteHeader, ResponseWriter.WriteHeader]
    cases hw : c.wroteHeader <;> simp [hw, ih, firstWriteHeader]
  | Write b k ih =>
    intro c w
    simp only [serveSnoop, hookWrite, ResponseWriter.Write]
    rw [ih]
    simp [firstWriteHeader]

/-- The shimmed run and the direct run have the same exchanges and leave the same sink. -/
theorem serveSnoop_serve (wres : WriteOracle) (h : Handler) :
    ∀ (c : Capture) (w : ResponseWriter),
      ((serveSnoop wres h c w).1, (serveSnoop wres h c w).2.2) = serve wres h w := by
  induction h with
  | done => intro c w; simp [serveSnoop, serve]
  | Header k ih =>
    intro c w
    simp only [serveSnoop, serve, hookHeader, ResponseWriter.Header]
    rw [← ih _ { c with header := true }]
  | mutate f k ih =>
    intro c w
    simp only [serveSnoop, serve]
    rw [← ih c]
  | WriteHeader code k ih =>
    intro c w
    simp only [serveSnoop, serve, hookWriteHeader, ResponseWriter.WriteHeader]
    split
    · rw [← ih { c with status := code, wroteHeader := true }]
    · rw [← ih c]
  | Write b k ih =>
    intro c w
    simp only [serveSnoop, serve, hookWrite, ResponseWriter.Write]
    rw [← ih _ { c with buf := c.buf ++ b }]

/-- What `Wrap` does when the key function says not to proceed. -/
theorem Wrap_of_not_ok (canon : String → String) (wres : WriteOracle) (m : Middleware)
    (next : Request → Handler) (env : Env) (w : ResponseWriter) (r : Request)
    (h : (m.keyFn w r).1.2 = false) :
    Wrap canon wres m next env w r = { m := m, w := (m.keyFn w r).2, log := [] } := by
  simp [Wrap, h]

/-- What `Wrap` does on a hit: the key function proceeds and the lookup finds a record. -/
theorem Wrap_of_hit (canon : String → String) (wres : WriteOracle) (m : Middleware)
    (next : Request → Handler) (env : Env) (w : ResponseWriter) (r : Request)
    (resp : response) (h : (m.keyFn w r).1.2 = true)
    (hget : (m.cache.Get env.tGet (m.keyFn w r).1.1).1 = some (CacheValue.resp resp)) :
    Wrap canon wres m next env w r =
      { m := { m with cache := (m.cache.Get env.tGet (m.keyFn w r).1.1).2 },
        w := hit canon wres resp (m.keyFn w r).2,
        log := [Effect.cacheGet (m.keyFn w r).1.1] } := by
  simp only [Wrap, h]
  generalize m.cache.Get env.tGet (m.keyFn w r).1.1 = g at hget
  obtain ⟨v, c1⟩ := g
  simp only at hget
  subst hget
  simp

/-- What `Wrap` does on a miss: the key function proceeds and the lookup finds no record. -/
theorem Wrap_of_miss (canon : String → String) (wres : WriteOracle) (m : Middleware)
    (next : Request → Handler) (env : Env) (w : ResponseWriter) (r : Request)
    (h : (m.keyFn w r).1.2 = true)
    (hget : ∀ resp, (m.cache.Get env.tGet (m.keyFn w r).1.1).1 ≠ some (CacheValue.resp resp)) :
    Wrap canon wres m next env w r =
      miss wres m next env (m.keyFn w r).1.1 (m.cache.Get env.tGet (m.keyFn w r).1.1).2
        (m.keyFn w r).2 r := by
  simp only [Wrap, h]
  generalize m.cache.Get env.tGet (m.keyFn w r).1.1 = g at hget
  obtain ⟨v, c1⟩ := g
  simp only at hget
  rcases v with _ | v
  · simp
  · cases v with
    | resp x => exact absurd rfl (hget x)
    | other => simp

/-- Appending the same string on the right is injective. -/
theorem string_append_right_cancel (a b c : String) (h : a ++ c = b ++ c) : a = b := by
  have h1 := congrArg String.data h
  simp only [String.data_append] at h1
  exact String.ext (List.append_cancel_right h1)

/-- Appending to the same string on the left is injective. -/
theorem string_append_left_cancel (a b c : String) (h : a ++ b = a ++ c) : b = c := by
  have h1 := congrArg String.data h
  simp only [String.data_append] at h1
  exact String.ext (List.append_cancel_left h1)

/-- The calls the sink receives on the hit path. -/
theorem hit_calls (canon : String → String) (wres : WriteOracle) (resp : response)
    (w : ResponseWriter) :
    (hit canon wres resp w).calls =
      w.calls ++ [Call.Header, Call.WriteHeader resp.statusCode, Call.Write resp.body] := by
  simp [hit, ResponseWriter.Header, ResponseWriter.WriteHeader, ResponseWriter.Write]

/-- The first request through a fresh middleware takes the miss path. -/
theorem Wrap_fresh (canon : String → String) (wres : WriteOracle) (max ttl : Nat)
    (keyFn : KeyFunc) (next : Request → Handler) (env : Env) (w : ResponseWriter)
    (r : Request) (h : (keyFn w r).1.2 = true) :
    Wrap canon wres (NewMiddleware max ttl keyFn) next env w r =
      miss wres (NewMiddleware max ttl keyFn) next env (keyFn w r).1.1
        ((NewMiddleware max ttl keyFn).cache.Get env.tGet (keyFn w r).1.1).2
        (keyFn w r).2 r := by
  apply Wrap_of_miss canon wres (NewMiddleware max ttl keyFn) next env w r h
  intro resp
  simp [NewMiddleware, Cache.Get]

/-- A value stored in the fresh cache is found again before it expires. -/
theorem fresh_then_get (max ttl : Nat) (keyFn : KeyFunc) (key : String) (t1 t2 t3 : Nat)
    (v : CacheValue) (hmax : 0 < max) (ht : t3 < t2 + ttl) :
    ((((NewMiddleware max ttl keyFn).cache.Get t1 key).2.Set t2 key v ttl).Get t3 key).1
      = some v := by
  have h1 : ¬ (1 > max) := by omega
  simp [NewMiddleware, Cache.Get, Cache.Set, h1, ht]

/-- The outcome of the miss path when the closure runs. -/
theorem miss_leader (wres : WriteOracle) (m : Middleware) (next : Request → Handler)
    (env : Env) (key : String) (cache1 : Cache) (w : ResponseWriter) (r : Request)
    (hl : env.leader = true) :
    miss wres m next env key cache1 w r =
      { m := { m with
                cache := cache1.Set env.tSet key
                  (CacheValue.resp (buildResponse
                    (serveSnoop wres (next r) (Capture.init (m.pool.Get env.poolIdx).1) w).2.1
                    (serveSnoop wres (next r) (Capture.init (m.pool.Get env.poolIdx).1) w).2.2))
                  m.ttl,
                pool := (m.pool.Get env.poolIdx).2.Put
                  (serveSnoop wres (next r) (Capture.init (m.pool.Get env.poolIdx).1) w).2.1.buf },
        w := (serveSnoop wres (next r) (Capture.init (m.pool.Get env.poolIdx).1) w).2.2,
        log := [Effect.cacheGet key, Effect.poolGet, Effect.next,
          Effect.cacheSet key (buildResponse
            (serveSnoop wres (next r) (Capture.init (m.pool.Get env.poolIdx).1) w).2.1
            (serveSnoop wres (next r) (Capture.init (m.pool.Get env.poolIdx).1) w).2.2) m.ttl,
          Effect.poolPut] } := by
  simp [miss, groupDo, closure, hl, Capture.init]

/-- The outcome of the miss path when the closure does not run. -/
theorem miss_follower (wres : WriteOracle) (m : Middleware) (next : Request → Handler)
    (env : Env) (key : String) (cache1 : Cache) (w : ResponseWriter) (r : Request)
    (hl : env.leader = false) :
    miss wres m next env key cache1 w r =
      { m := { m with
                cache := cache1.Set env.tSet key
                  (CacheValue.resp (buildResponse (Capture.init (m.pool.Get env.poolIdx).1) w))
                  m.ttl,
                pool := (m.pool.Get env.poolIdx).2.Put (m.pool.Get env.poolIdx).1 },
        w := w,
        log := [Effect.cacheGet key, Effect.poolGet,
          Effect.cacheSet key (buildResponse (Capture.init (m.pool.Get env.poolIdx).1) w) m.ttl,
          Effect.poolPut] } := by
  simp [miss, groupDo, hl, Capture.init]

/-- The record stored by the miss path when the closure runs. -/
theorem miss_leader_record (wres : WriteOracle) (m : Middleware) (next : Request → Handler)
    (env : Env) (key : String) (cache1 : Cache) (w : ResponseWriter) (r : Request)
    (hl : env.leader = true) :
    storedRecord (miss wres m next env key cache1 w r) =
      some (buildResponse
        (serveSnoop wres (next r) (Capture.init (m.pool.Get env.poolIdx).1) w).2.1
        (serveSnoop wres (next r) (Capture.init (m.pool.Get env.poolIdx).1) w).2.2) := by
  rw [miss_leader wres m next env key cache1 w r hl]
  simp [storedRecord]

/-- The body stored by the miss path when the closure runs: the bytes the pooled
buffer held when it was handed out, followed by the bytes the handler wrote. -/
theorem miss_leader_body (wres : WriteOracle) (m : Middleware) (next : Request → Handler)
    (env : Env) (key : String) (cache1 : Cache) (w : ResponseWriter) (r : Request)
    (hl : env.leader = true) :
    (storedRecord (miss wres m next env key cache1 w r)).map response.body =
      some ((m.pool.Get env.poolIdx).1 ++
        writesOf (shimExchanges wres (next r) (Capture.init (m.pool.Get env.poolIdx).1) w)) := by
  rw [miss_leader_record wres m next env key cache1 w r hl]
  simp only [Option.map_some', buildResponse, shimExchanges]
  rw [serveSnoop_buf]
  simp [Capture.init]

/-- The status stored by the miss path when the closure runs and the handler never
calls `WriteHeader`: 200. -/
theorem miss_leader_status_default (wres : WriteOracle) (m : Middleware)
    (next : Request → Handler) (env : Env) (key : String) (cache1 : Cache)
    (w : ResponseWriter) (r : Request) (hl : env.leader = true)
    (hnone : firstWriteHeader
      (shimExchanges wres (next r) (Capture.init (m.pool.Get env.poolIdx).1) w) = none) :
    (storedRecord (miss wres m next env key cache1 w r)).map response.statusCode =
      some 200 := by
  rw [miss_leader_record wres m next env key cache1 w r hl]
  simp only [Option.map_some', buildResponse]
  rw [serveSnoop_status]
  simp only [shimExchanges, Capture.init] at hnone
  simp [Capture.init, hnone]

/-- A status set before the body starts is the code of the first `WriteHeader`. -/
theorem firstWriteHeader_of_statusBeforeBody (tr : List Exchange) (code : Int)
    (h : statusBeforeBody tr = some code) : firstWriteHeader tr = some code := by
  induction tr with
  | nil => simp [statusBeforeBody] at h
  | cons e t ih =>
    cases e with
    | Header ret => simpa [statusBeforeBody, firstWriteHeader] using ih h
    | WriteHeader c => simpa [statusBeforeBody, firstWriteHeader] using h
    | Write b ret => simp [statusBeforeBody] at h

/-! ## The claims -/

/-- C6: on the miss path the capture shim is transparent.  For every handler, the
exchanges it has with the shim (each call with its arguments and with what was
returned to the handler) and the sink left behind are those of running the handler on
the sink directly; so is the sink after the miss path of `Wrap` when the closure runs. -/
theorem shim_transparent (wres : WriteOracle) :
    (∀ (h : Handler) (c : Capture) (w : ResponseWriter),
      (shimExchanges wres h c w, (serveSnoop wres h c w).2.2) = serve wres h w) ∧
    (∀ (m : Middleware) (next : Request → Handler) (env : Env) (key : String)
        (cache1 : Cache) (w : ResponseWriter) (r : Request),
      (miss wres m next { env with leader := true } key cache1 w r).w =
        (serve wres (next r) w).2) := by
  refine ⟨fun h c w => serveSnoop_serve wres h c w, ?_⟩
  intro m next env key cache1 w r
  simp only [miss, groupDo, closure, if_true]
  rw [← serveSnoop_serve wres (next r)
    { header := false, wroteHeader := false, status := 0, buf := (m.pool.Get env.poolIdx).1 } w]

/-- C7: when the key function returns proceed = false, `Wrap` does not invoke `next`,
does not look up or write the cache (the cache and its counters are unchanged), takes
no buffer from the pool, and leaves the sink as the key function left it. -/
theorem Wrap_bypass (canon : String → String) (wres : WriteOracle) (m : Middleware)
    (next : Request → Handler) (env : Env) (w : ResponseWriter) (r : Request)
    (h : (m.keyFn w r).1.2 = false) :
    (Wrap canon wres m next env w r).log = [] ∧
    nextCalls (Wrap canon wres m next env w r) = 0 ∧
    storedRecord (Wrap canon wres m next env w r) = none ∧
    (Wrap canon wres m next env w r).m.cache = m.cache ∧
    (Wrap canon wres m next env w r).m.Stats = m.Stats ∧
    (Wrap canon wres m next env w r).m.pool = m.pool ∧
    (Wrap canon wres m next env w r).w = (m.keyFn w r).2 := by
  rw [Wrap_of_not_ok canon wres m next env w r h]
  simp [nextCalls, storedRecord]

/-- Witness of C7: the middleware with `denyKeyFn` and the handler of `Test`. -/
theorem Wrap_bypass_witness :
    ((NewMiddleware 1000 3600 denyKeyFn).keyFn emptyWriter getFoo).1.2 = false ∧
    (Wrap id okWrite (NewMiddleware 1000 3600 denyKeyFn) testHandler (seqEnv 0)
      emptyWriter getFoo).log = [] ∧
    (Wrap id okWrite (NewMiddleware 1000 3600 denyKeyFn) testHandler (seqEnv 0)
      emptyWriter getFoo).w = emptyWriter :=
  ⟨rfl,
   (Wrap_bypass id okWrite (NewMiddleware 1000 3600 denyKeyFn) testHandler (seqEnv 0)
      emptyWriter getFoo rfl).1,
   (Wrap_bypass id okWrite (NewMiddleware 1000 3600 denyKeyFn) testHandler (seqEnv 0)
      emptyWriter getFoo rfl).2.2.2.2.2.2⟩

/-- C10: the key function of `BasicKeyFunc` returns proceed = true and the method
immediately followed by the URL string, and leaves the sink untouched; two requests
with the same URL and different methods, or the same method and different URLs, get
different keys. -/
theorem BasicKeyFunc_key (w1 w2 : ResponseWriter) (r1 r2 : Request)
    (h : (r1.URL = r2.URL ∧ r1.Method ≠ r2.Method) ∨
         (r1.Method = r2.Method ∧ r1.URL ≠ r2.URL)) :
    BasicKeyFunc w1 r1 = ((r1.Method ++ r1.URL, true), w1) ∧
    (BasicKeyFunc w1 r1).1.1 ≠ (BasicKeyFunc w2 r2).1.1 := by
  refine ⟨rfl, ?_⟩
  simp only [BasicKeyFunc]
  intro heq
  rcases h with ⟨hu, hm⟩ | ⟨hm, hu⟩
  · rw [hu] at heq
    exact hm (string_append_right_cancel _ _ _ heq)
  · rw [hm] at heq
    exact hu (string_append_left_cancel _ _ _ heq)

/-- Witness of C10: `GET /foo/var` and `DELETE /foo/var`, as in `Test`. -/
theorem BasicKeyFunc_key_witness :
    BasicKeyFunc emptyWriter { Method := "GET", URL := "/foo/var" } =
      (("GET/foo/var", true), emptyWriter) ∧
    (BasicKeyFunc emptyWriter { Method := "GET", URL := "/foo/var" }).1.1 ≠
      (BasicKeyFunc emptyWriter { Method := "DELETE", URL := "/foo/var" }).1.1 :=
  BasicKeyFunc_key emptyWriter emptyWriter { Method := "GET", URL := "/foo/var" }
    { Method := "DELETE", URL := "/foo/var" } (Or.inl ⟨rfl, by decide⟩)

/-- C1: a request whose key function returns (k, true) and for which the cache holds
an unexpired record (status s, body b) under k never invokes `next` and hands nothing
to `cache.Set` (the cache is the one the lookup left, the pool is untouched); the sink
receives, after the `Header()` call of the replay, exactly one
`WriteHeader(s)` followed by exactly one `Write(b)`.  In particular, for two
sequential requests with the same key through a fresh middleware (capacity at least
one, the second lookup before the expiry of the first store), `next` runs once, the
first execution records the bytes its handler wrote, and the second sink receives the
recorded status and body. -/
theorem Wrap_hit_replays (canon : String → String) (wres : WriteOracle) :
    (∀ (m : Middleware) (next : Request → Handler) (env : Env) (w : ResponseWriter)
        (r : Request) (resp : response),
      (m.keyFn w r).1.2 = true →
      (m.cache.Get env.tGet (m.keyFn w r).1.1).1 = some (CacheValue.resp resp) →
        nextCalls (Wrap canon wres m next env w r) = 0 ∧
        storedRecord (Wrap canon wres m next env w r) = none ∧
        (Wrap canon wres m next env w r).log = [Effect.cacheGet (m.keyFn w r).1.1] ∧
        (Wrap canon wres m next env w r).m.cache =
          (m.cache.Get env.tGet (m.keyFn w r).1.1).2 ∧
        (Wrap canon wres m next env w r).m.pool = m.pool ∧
        (Wrap canon wres m next env w r).w.calls =
          (m.keyFn w r).2.calls ++
            [Call.Header, Call.WriteHeader resp.statusCode, Call.Write resp.body]) ∧
    (∀ (max ttl : Nat) (keyFn : KeyFunc) (next : Request → Handler) (env1 env2 : Env)
        (w1 w2 : ResponseWriter) (r1 r2 : Request),
      0 < max → env1.leader = true → env2.tGet < env1.tSet + ttl →
      (keyFn w1 r1).1.2 = true → (keyFn w2 r2).1 = (keyFn w1 r1).1 →
        ∃ resp : response,
          storedRecord (Wrap canon wres (NewMiddleware max ttl keyFn) next env1 w1 r1) =
            some resp ∧
          resp.body =
            writesOf (shimExchanges wres (next r1) (Capture.init []) (keyFn w1 r1).2) ∧
          nextCalls (Wrap canon wres (NewMiddleware max ttl keyFn) next env1 w1 r1) = 1 ∧
          nextCalls (Wrap canon wres
            (Wrap canon wres (NewMiddleware max ttl keyFn) next env1 w1 r1).m
            next env2 w2 r2) = 0 ∧
          (Wrap canon wres
            (Wrap canon wres (NewMiddleware max ttl keyFn) next env1 w1 r1).m
            next env2 w2 r2).w.calls =
            (keyFn w2 r2).2.calls ++
              [Call.Header, Call.WriteHeader resp.statusCode, Call.Write resp.body]) := by
  refine ⟨?_, ?_⟩
  · intro m next env w r resp hk hget
    rw [Wrap_of_hit canon wres m next env w r resp hk hget]
    refine ⟨by simp [nextCalls], by simp [storedRecord], rfl, rfl, rfl, ?_⟩
    exact hit_calls canon wres resp _
  · intro max ttl keyFn next env1 env2 w1 w2 r1 r2 hmax hl ht hk1 hk2
    have hk2a : (keyFn w2 r2).1.2 = true := by rw [hk2]; exact hk1
    have hk2b : (keyFn w2 r2).1.1 = (keyFn w1 r1).1.1 := by rw [hk2]
    rw [Wrap_fresh canon wres max ttl keyFn next env1 w1 r1 hk1, miss_leader _ _ _ _ _ _ _ _ hl]
    refine ⟨_, by simp [storedRecord]; rfl, ?_, by simp [nextCalls], ?_⟩
    · have hp : ((NewMiddleware max ttl keyFn).pool.Get env1.poolIdx).1 = [] := by
        simp [NewMiddleware, Pool.Get]
      simp only [buildResponse, hp, shimExchanges]
      rw [serveSnoop_buf]
      simp [Capture.init]
    · have hget := fresh_then_get max ttl keyFn (keyFn w1 r1).1.1 env1.tGet env1.tSet
        env2.tGet (CacheValue.resp (buildResponse
          (serveSnoop wres (next r1)
            (Capture.init ((NewMiddleware max ttl keyFn).pool.Get env1.poolIdx).1)
            (keyFn w1 r1).2).2.1
          (serveSnoop wres (next r1)
            (Capture.init ((NewMiddleware max ttl keyFn).pool.Get env1.poolIdx).1)
            (keyFn w1 r1).2).2.2)) hmax ht
      rw [Wrap_of_hit canon wres _ next env2 w2 r2 _ hk2a (by
        simp only [NewMiddleware] at hget ⊢
        rw [hk2b]
        exact hget)]
      refine ⟨by simp [nextCalls], ?_⟩
      rw [hit_calls]
      rfl

/-- Witness of C1: `GET /foo` twice through the middleware of `Test`, the second
request five ticks after the first. -/
theorem Wrap_hit_replays_witness :
    (afterFirst.keyFn emptyWriter getFoo).1.2 = true ∧
    (afterFirst.cache.Get (seqEnv 5).tGet (afterFirst.keyFn emptyWriter getFoo).1.1).1 =
      some (CacheValue.resp testRecord) ∧
    (nextCalls (Wrap id okWrite afterFirst testHandler (seqEnv 5) emptyWriter getFoo) = 0 ∧
      storedRecord (Wrap id okWrite afterFirst testHandler (seqEnv 5) emptyWriter getFoo) =
        none ∧
      (Wrap id okWrite afterFirst testHandler (seqEnv 5) emptyWriter getFoo).log =
        [Effect.cacheGet "GET/foo"] ∧
      (Wrap id okWrite afterFirst testHandler (seqEnv 5) emptyWriter getFoo).m.cache =
        (afterFirst.cache.Get 5 "GET/foo").2 ∧
      (Wrap id okWrite afterFirst testHandler (seqEnv 5) emptyWriter getFoo).m.pool =
        afterFirst.pool ∧
      (Wrap id okWrite afterFirst testHandler (seqEnv 5) emptyWriter getFoo).w.calls =
        [Call.Header, Call.WriteHeader 500, Call.Write abcdefg]) ∧
    (∃ resp : response,
      storedRecord (Wrap id okWrite (NewMiddleware 1000 3600 BasicKeyFunc) testHandler
        (seqEnv 0) emptyWriter getFoo) = some resp ∧
      resp.body = abcdefg ∧
      nextCalls (Wrap id okWrite (NewMiddleware 1000 3600 BasicKeyFunc) testHandler
        (seqEnv 0) emptyWriter getFoo) = 1 ∧
      nextCalls (Wrap id okWrite afterFirst testHandler (seqEnv 5) emptyWriter getFoo) = 0 ∧
      (Wrap id okWrite afterFirst testHandler (seqEnv 5) emptyWriter getFoo).w.calls =
        [Call.Header, Call.WriteHeader resp.statusCode, Call.Write resp.body]) :=
  ⟨rfl, rfl,
   (Wrap_hit_replays id okWrite).1 afterFirst testHandler (seqEnv 5) emptyWriter getFoo
     testRecord rfl rfl,
   (Wrap_hit_replays id okWrite).2 1000 3600 BasicKeyFunc testHandler (seqEnv 0) (seqEnv 5)
     emptyWriter emptyWriter getFoo getFoo (by decide) rfl (by decide) rfl rfl⟩

/-- C4: on the miss path, when the closure runs and the handler sets a status before
the body starts (its first `WriteHeader` call comes before every `Write`) with a
non-zero code, as the contract of `WriteHeader` requires, the status of the stored
record is the code of that first call, whatever `WriteHeader` calls follow it; every
call of the handler, each later `WriteHeader` included, reaches the sink in order. -/
theorem miss_status_first_WriteHeader (wres : WriteOracle) (m : Middleware)
    (next : Request → Handler) (env : Env) (key : String) (cache1 : Cache)
    (w : ResponseWriter) (r : Request) (code : Int) (hl : env.leader = true)
    (hcode : code ≠ 0)
    (hfirst : statusBeforeBody
      (shimExchanges wres (next r) (Capture.init (m.pool.Get env.poolIdx).1) w) = some code) :
    (storedRecord (miss wres m next env key cache1 w r)).map response.statusCode =
      some code ∧
    (miss wres m next env key cache1 w r).w.calls =
      w.calls ++
        (shimExchanges wres (next r) (Capture.init (m.pool.Get env.poolIdx).1) w).map
          Exchange.call := by
  constructor
  · have hf := firstWriteHeader_of_statusBeforeBody _ code hfirst
    rw [miss_leader_record wres m next env key cache1 w r hl]
    simp only [Option.map_some', buildResponse]
    rw [serveSnoop_status]
    simp only [shimExchanges, Capture.init] at hf
    simp [Capture.init, hf, hcode]
  · rw [miss_leader wres m next env key cache1 w r hl]
    simp only [shimExchanges]
    rw [serveSnoop_calls]

/-- Witness of C4: a handler that calls `WriteHeader(500)` and then `WriteHeader(200)`
before it writes the body; 500 is stored and both calls reach the sink. -/
theorem miss_status_first_WriteHeader_witness :
    (storedRecord (miss okWrite (NewMiddleware 1000 3600 BasicKeyFunc) twiceStatusHandler
      (seqEnv 0) "GET/foo" (NewMiddleware 1000 3600 BasicKeyFunc).cache emptyWriter
      getFoo)).map response.statusCode = some 500 ∧
    (miss okWrite (NewMiddleware 1000 3600 BasicKeyFunc) twiceStatusHandler (seqEnv 0)
      "GET/foo" (NewMiddleware 1000 3600 BasicKeyFunc).cache emptyWriter getFoo).w.calls =
      [Call.WriteHeader 500, Call.WriteHeader 200, Call.Write abcdefg] :=
  miss_status_first_WriteHeader okWrite (NewMiddleware 1000 3600 BasicKeyFunc)
    twiceStatusHandler (seqEnv 0) "GET/foo" (NewMiddleware 1000 3600 BasicKeyFunc).cache
    emptyWriter getFoo 500 rfl (by decide) rfl

/-- C3, the code at the failing input: `GET /foo` and then `GET /foo/var` through the
middleware of `Test`.  The pool hands the second request the buffer the first one put
back, still holding `abcdefg`; the second execution writes `abcdefg` once, and the body
stored under `GET/foo/var` is `abcdefgabcdefg`. -/
theorem pooled_buffer_not_cleared :
    afterFirst.pool = [abcdefg] ∧
    (afterFirst.pool.Get (seqEnv 5).poolIdx).1 = abcdefg ∧
    writesOf (shimExchanges okWrite (testHandler getFooVar) (Capture.init abcdefg)
      emptyWriter) = abcdefg ∧
    storedRecord (Wrap id okWrite afterFirst testHandler (seqEnv 5) emptyWriter getFooVar) =
      some { header := some [("X-Test", ["test-value"])], statusCode := 500,
             body := abcdefg ++ abcdefg } := by
  decide

/-- C5, the code at the failing input: the handler writes the body `x` with no status
set, then calls `WriteHeader(404)`.  No `WriteHeader` precedes the first body write,
and the stored status is 404, not 200. -/
theorem late_WriteHeader_recorded :
    shimExchanges okWrite (lateStatusHandler getFoo) (Capture.init []) emptyWriter =
      [Exchange.Write [120] (1, none), Exchange.WriteHeader 404] ∧
    storedRecord (Wrap id okWrite (NewMiddleware 1000 3600 BasicKeyFunc) lateStatusHandler
      (seqEnv 0) emptyWriter getFoo) =
      some { header := none, statusCode := 404, body := [120] } := by
  decide

/-- C8, the code at the failing input: replaying a record whose header `X-A` carries
the values `1`, `2` onto a sink with an empty header map leaves the single value `2`
under the canonical form of the name: each `Set` replaces the values before it. -/
theorem replay_keeps_last_value (canon : String → String) (wres : WriteOracle) :
    (hit canon wres multiRecord emptyWriter).header = [(canon "X-A", ["2"])] ∧
    Header.lookup (hit canon wres multiRecord emptyWriter).header (canon "X-A") =
      some ["2"] ∧
    (hit canon wres multiRecord emptyWriter).header ≠ [("X-A", ["1", "2"])] := by
  have h : (hit canon wres multiRecord emptyWriter).header = [(canon "X-A", ["2"])] := by
    simp [hit, multiRecord, emptyWriter, replayHeader, Header.Set, ResponseWriter.Header,
      ResponseWriter.WriteHeader, ResponseWriter.Write]
  refine ⟨h, ?_, ?_⟩
  · rw [h]
    simp [Header.lookup, List.lookup]
  · rw [h]
    simp

/-- C9, the code at the failing input: a request that finds no entry and whose
`group.Do` call returns without running the closure.  Whatever the handler is, the
record it stores is built from its own capture variables: nil header, status 200, and
the bytes the pooled buffer already held; `next` is not invoked and the sink receives
nothing.  For the handler of `Test` through a fresh middleware the follower stores an
empty 200 record, where a leader stores the 500 record with `abcdefg`. -/
theorem follower_stores_own_capture (wres : WriteOracle) :
    (∀ (m : Middleware) (next : Request → Handler) (env : Env) (key : String)
        (cache1 : Cache) (w : ResponseWriter) (r : Request),
      (miss wres m next { env with leader := false } key cache1 w r).log =
        [Effect.cacheGet key, Effect.poolGet,
         Effect.cacheSet key
           { header := none, statusCode := 200, body := (m.pool.Get env.poolIdx).1 } m.ttl,
         Effect.poolPut] ∧
      (miss wres m next { env with leader := false } key cache1 w r).w = w) ∧
    storedRecord (Wrap id okWrite (NewMiddleware 1000 3600 BasicKeyFunc) testHandler
      (followerEnv 0) emptyWriter getFoo) =
      some { header := none, statusCode := 200, body := [] } ∧
    storedRecord (Wrap id okWrite (NewMiddleware 1000 3600 BasicKeyFunc) testHandler
      (seqEnv 0) emptyWriter getFoo) = some testRecord := by
  refine ⟨?_, by decide, by decide⟩
  intro m next env key cache1 w r
  rw [miss_follower wres m next _ key cache1 w r rfl]
  simp [buildResponse, Capture.init]

end Cachehandler
